import Mathlib

/-!
Verification of the 3MF container-format parser and object-grouping engine
of the farmix3d CLI tool.

The Go sources under `internal/parser` (and the grouping engine
`GroupObjectsByName`) are shallowly embedded below:

* Go structs become Lean structures with the same field names
  (`Type` is spelled `Type'` because `Type` is a Lean keyword);
* Go `float64` fields become `ℚ` (the core never computes with them,
  it only stores parsed values), with the numeric-token parser
  `strconv.ParseFloat` abstracted as a parameter `pf : String → Option ℚ`;
* Go maps become association lists with first-match lookup and
  replace-in-place insertion (`mapLookup` / `mapInsert`); Go's
  unspecified map iteration order is modelled as insertion order;
* file-system reads of sub-assembly documents
  (`ParseAssemblyModel`, i.e. path lookup plus XML deserialization)
  are abstracted as an environment `env : String → Option Model3D`
  (`none` = missing file or XML parse failure);
* the scratch-directory life cycle of `Parse3MF` / `ExtractArchive` /
  `CleanupTemp` is embedded by explicit state passing over the set of
  extant scratch directories (`FS`), with the Go `defer` applied on
  every return path, as in the source.
-/

namespace Parser

/-- Go `map[α]β`, modelled as an association list: first-match lookup. -/
def mapLookup {α β : Type} [DecidableEq α] (m : List (α × β)) (k : α) : Option β :=
  match m with
  | [] => none
  | (k', v) :: rest => if k' = k then some v else mapLookup rest k

/-- Go map assignment `m[k] = v`: replace the binding in place, else append. -/
def mapInsert {α β : Type} [DecidableEq α] (m : List (α × β)) (k : α) (v : β) :
    List (α × β) :=
  match m with
  | [] => [(k, v)]
  | (k', v') :: rest => if k' = k then (k, v) :: rest else (k', v') :: mapInsert rest k v

/-- `Transform3D` (types.go): a 12-element affine matrix, `[12]float64`. -/
structure Transform3D where
  Matrix : List ℚ
deriving DecidableEq, Repr

/-- `ComponentInfo` (types.go). -/
structure ComponentInfo where
  ID : Int
  Name : String
  SourceFile : String
  Transform : Transform3D
deriving DecidableEq, Repr

/-- `PlateObject` (types.go); Go field `Type` is spelled `Type'`. -/
structure PlateObject where
  ID : Int
  Name : String
  Type' : String
  Material : String
  Position : Transform3D
  Printable : Bool
  Components : List ComponentInfo
deriving DecidableEq, Repr

/-- `PlateInfo` (types.go). -/
structure PlateInfo where
  PlateID : Int
  PlateName : String
  Objects : List PlateObject
deriving DecidableEq, Repr

/-- `GroupedObject` (types.go); Go field `Type` is spelled `Type'`. -/
structure GroupedObject where
  Name : String
  Type' : String
  Material : String
  Count : Nat
  Components : List ComponentInfo
  ObjectIDs : List Int
deriving DecidableEq, Repr

/-- `Parser3MF` (types.go): the top-level parse result. -/
structure Parser3MF where
  Plates : List PlateInfo
deriving DecidableEq, Repr

/-- `Vertex` (types.go). -/
structure Vertex where
  X : ℚ
  Y : ℚ
  Z : ℚ
deriving DecidableEq, Repr

/-- `Triangle` (types.go). -/
structure Triangle where
  V1 : Int
  V2 : Int
  V3 : Int
deriving DecidableEq, Repr

/-- `Mesh` (types.go). -/
structure Mesh where
  Vertices : List Vertex
  Triangles : List Triangle
deriving DecidableEq, Repr

/-- `Component` (types.go): a component reference inside an assembly. -/
structure Component where
  ObjectID : Int
  Transform : String
  Path : String
deriving DecidableEq, Repr

/-- `ComponentsCollection` (types.go). -/
structure ComponentsCollection where
  Components : List Component
deriving DecidableEq, Repr

/-- `ModelObject` (types.go); Go field `Type` is spelled `Type'`. -/
structure ModelObject where
  ID : Int
  Type' : String
  Name : String
  Mesh : Option Mesh
  Components : Option ComponentsCollection
deriving DecidableEq, Repr

/-- `BuildItem` (types.go); `Printable *bool` becomes `Option Bool`. -/
structure BuildItem where
  ObjectID : Int
  Transform : String
  Printable : Option Bool
deriving DecidableEq, Repr

/-- `Model3D` (types.go): the primary (or a sub-assembly) model document. -/
structure Model3D where
  Unit : String
  Resources : List ModelObject
  Build : List BuildItem
deriving DecidableEq, Repr

/-- `MetadataEntry` (types.go). -/
structure MetadataEntry where
  Key : String
  Value : String
deriving DecidableEq, Repr

/-- `ModelInstance` (types.go). -/
structure ModelInstance where
  ObjectID : Int
  InstanceID : Int
  IdentifyID : Int
  Metadata : List MetadataEntry
deriving DecidableEq, Repr

/-- `Plate` (types.go). -/
structure Plate where
  PlaterID : Int
  PlaterName : String
  Metadata : List MetadataEntry
  Instances : List ModelInstance
deriving DecidableEq, Repr

/-- `PartMeta` (types.go). -/
structure PartMeta where
  ID : Int
  Name : String
  SourceFile : String
  Metadata : List MetadataEntry
deriving DecidableEq, Repr

/-- `ObjectMeta` (types.go). -/
structure ObjectMeta where
  ID : Int
  Name : String
  Metadata : List MetadataEntry
  Parts : List PartMeta
deriving DecidableEq, Repr

/-- `ModelSettings` (types.go): the settings/overlay document. -/
structure ModelSettings where
  Plates : List Plate
  Instances : List ModelInstance
  Objects : List ObjectMeta
  Parts : List PartMeta
deriving DecidableEq, Repr

/-- Helper for `goFields`: single pass over the characters, accumulating
the current (reversed) token. -/
def fieldsAux : List Char → List Char → List String
  | [], cur => if cur.isEmpty then [] else [String.mk cur.reverse]
  | c :: cs, cur =>
    if c.isWhitespace then
      if cur.isEmpty then fieldsAux cs []
      else String.mk cur.reverse :: fieldsAux cs []
    else fieldsAux cs (c :: cur)

/-- `strings.Fields`: the whitespace-separated tokens of a string, in
order, with no empty tokens. -/
def goFields (s : String) : List String := fieldsAux s.data []

/-- `strings.HasSuffix`. -/
def goHasSuffix (s suffix : String) : Bool := suffix.data.isSuffixOf s.data

/-- The identity matrix `[1,0,0, 0,1,0, 0,0,1, 0,0,0]` (model_parser.go). -/
def identityMatrix : List ℚ := [1, 0, 0, 0, 1, 0, 0, 0, 1, 0, 0, 0]

/-- `ParseTransform` (model_parser.go).  `pf` abstracts `strconv.ParseFloat`;
a component whose token fails to parse is left at its zero default. -/
def ParseTransform (pf : String → Option ℚ) (transformStr : String) : Transform3D :=
  if transformStr = "" then { Matrix := identityMatrix }
  else
    let parts := goFields transformStr
    if parts.length ≠ 12 then { Matrix := identityMatrix }
    else { Matrix := parts.map (fun part => (pf part).getD 0) }

/-- `extractMetadataValue` (metadata.go): first value whose key matches, else `""`. -/
def extractMetadataValue (metadata : List MetadataEntry) (key : String) : String :=
  match metadata with
  | [] => ""
  | entry :: rest => if entry.Key = key then entry.Value else extractMetadataValue rest key

/-- `buildObjectMetadataMap` (metadata.go). -/
def buildObjectMetadataMap (objects : List ObjectMeta) : List (Int × String) :=
  objects.foldl
    (fun m obj =>
      let name := extractMetadataValue obj.Metadata "name"
      if name ≠ "" then mapInsert m obj.ID name else m)
    []

/-- `getObjectNameFromParts` (metadata.go): object-level `name` metadata,
else the single part's `name` metadata, else `Object_<id>`. -/
def getObjectNameFromParts (obj : ObjectMeta) : String :=
  let name := extractMetadataValue obj.Metadata "name"
  if name ≠ "" then name
  else
    match obj.Parts with
    | [p] =>
      let partName := extractMetadataValue p.Metadata "name"
      if partName ≠ "" then partName else "Object_" ++ toString obj.ID
    | _ => "Object_" ++ toString obj.ID

/-- `getObjectName` (parser.go): settings object name, else part name,
else the model document's declared name, else `Object_<id>`. -/
def getObjectName (objectID : Int) (objectNameMap partNameMap : List (Int × String))
    (modelObj : ModelObject) : String :=
  let n1 := (mapLookup objectNameMap objectID).getD ""
  if n1 ≠ "" then n1
  else
    let n2 := (mapLookup partNameMap objectID).getD ""
    if n2 ≠ "" then n2
    else if modelObj.Name ≠ "" then modelObj.Name
    else "Object_" ++ toString objectID

/-- `isEmptyAssembly` (parser.go).  `env` abstracts `ParseAssemblyModel`
under the scratch directory: `none` is a parse failure. -/
def isEmptyAssembly (env : String → Option Model3D) (assemblyPath : String) : Bool :=
  if assemblyPath = "" then true
  else if ¬ goHasSuffix assemblyPath ".model" then false
  else
    match env assemblyPath with
    | none => true
    | some assemblyModel => assemblyModel.Resources.length = 0

/-- The per-component resolution step of `processAssemblyComponents`
(parser.go): provisional name from the part-name index, overridden by a
matching non-empty resource name of the referenced sub-assembly document;
source file from the component path, else from the part-file index. -/
def resolveComponent (pf : String → Option ℚ) (env : String → Option Model3D)
    (partNameMap partFileMap : List (Int × String)) (comp : Component) : ComponentInfo :=
  let baseName :=
    match mapLookup partNameMap comp.ObjectID with
    | some name => name
    | none => "Component_" ++ toString comp.ObjectID
  if comp.Path ≠ "" then
    let overrideName :=
      match env comp.Path with
      | some assemblyModel =>
        if assemblyModel.Resources.length > 0 then
          match assemblyModel.Resources.find?
              (fun res => res.ID == comp.ObjectID && !(res.Name == "")) with
          | some res => res.Name
          | none => baseName
        else baseName
      | none => baseName
    { ID := comp.ObjectID, Name := overrideName, SourceFile := comp.Path,
      Transform := ParseTransform pf comp.Transform }
  else
    let sourceFile :=
      match mapLookup partFileMap comp.ObjectID with
      | some sf => sf
      | none => ""
    { ID := comp.ObjectID, Name := baseName, SourceFile := sourceFile,
      Transform := ParseTransform pf comp.Transform }

/-- `processAssemblyComponents` (parser.go): resolve every component, then
keep exactly those whose resolved source file is not an empty assembly. -/
def processAssemblyComponents (pf : String → Option ℚ) (env : String → Option Model3D)
    (components : ComponentsCollection) (partNameMap partFileMap : List (Int × String)) :
    List ComponentInfo :=
  (components.Components.map (resolveComponent pf env partNameMap partFileMap)).filter
    (fun compInfo => !(isEmptyAssembly env compInfo.SourceFile))

/-- `findPlateForObject` (parser.go).  Go iterates an unordered map to pick
an arbitrary plate; the embedding picks the first in insertion order. -/
def findPlateForObject (objectID : Int) (instanceToPlateMap : List (Int × Int))
    (plateMap : List (Int × PlateInfo)) : Int :=
  let firstKey :=
    match plateMap with
    | [] => 0
    | (k, _) :: _ => k
  match mapLookup instanceToPlateMap objectID with
  | some plateID => if (mapLookup plateMap plateID).isSome then plateID else firstKey
  | none => firstKey

/-- The `PlateObject` built for one build item in `Parse3MF`'s loop
(parser.go): mesh presence gives kind `mesh`, components presence gives
kind `assembly` with the filtered component list; `Material` is never set. -/
def buildPlateObject (pf : String → Option ℚ) (env : String → Option Model3D)
    (objectNameMap partNameMap partFileMap : List (Int × String))
    (buildItem : BuildItem) (modelObj : ModelObject) : PlateObject :=
  let base : PlateObject :=
    { ID := buildItem.ObjectID
      Name := getObjectName buildItem.ObjectID objectNameMap partNameMap modelObj
      Type' := ""
      Material := ""
      Position := ParseTransform pf buildItem.Transform
      Printable := buildItem.Printable.getD true
      Components := [] }
  match modelObj.Mesh with
  | some _ => { base with Type' := "mesh" }
  | none =>
    match modelObj.Components with
    | some comps =>
      { base with Type' := "assembly"
                  Components := processAssemblyComponents pf env comps partNameMap partFileMap }
    | none => base

/-- The body of `Parse3MF`'s build-list loop (parser.go): skip dangling
references, resolve the object, and append it to its plate. -/
def buildStep (pf : String → Option ℚ) (env : String → Option Model3D)
    (objectNameMap partNameMap partFileMap : List (Int × String))
    (instanceToPlateMap : List (Int × Int)) (modelObjectMap : List (Int × ModelObject))
    (pm : List (Int × PlateInfo)) (buildItem : BuildItem) : List (Int × PlateInfo) :=
  match mapLookup modelObjectMap buildItem.ObjectID with
  | none => pm
  | some modelObj =>
    let plateObject := buildPlateObject pf env objectNameMap partNameMap partFileMap
      buildItem modelObj
    let plateID := findPlateForObject buildItem.ObjectID instanceToPlateMap pm
    match mapLookup pm plateID with
    | some plate => mapInsert pm plateID { plate with Objects := plate.Objects ++ [plateObject] }
    | none => pm

/-- The pure core of `Parse3MF` (parser.go), after both documents parsed:
builds the index maps from the settings document's structural attributes,
walks the build list, and emits the plate map's values. -/
def parse3MFCore (pf : String → Option ℚ) (env : String → Option Model3D)
    (model : Model3D) (settings : ModelSettings) : Parser3MF :=
  let plateMap := settings.Plates.foldl
    (fun m plate =>
      mapInsert m plate.PlaterID
        { PlateID := plate.PlaterID, PlateName := plate.PlaterName, Objects := [] })
    []
  let objectNameMap := buildObjectMetadataMap settings.Objects
  let partNameMap := settings.Parts.foldl (fun m part => mapInsert m part.ID part.Name) []
  let partFileMap := settings.Parts.foldl (fun m part => mapInsert m part.ID part.SourceFile) []
  let instanceToPlateMap := settings.Instances.foldl
    (fun m inst => mapInsert m inst.ObjectID inst.InstanceID) []
  let modelObjectMap := model.Resources.foldl (fun m obj => mapInsert m obj.ID obj) []
  let finalPlateMap := model.Build.foldl
    (buildStep pf env objectNameMap partNameMap partFileMap instanceToPlateMap modelObjectMap)
    plateMap
  { Plates := finalPlateMap.map Prod.snd }

/-- The file-system state: the set of extant scratch directories. -/
structure FS where
  dirs : List String
deriving DecidableEq, Repr

/-- `CleanupTemp` (extractor.go): `os.RemoveAll` of the scratch directory. -/
def CleanupTemp (tempDir : String) (fs : FS) : FS :=
  { dirs := fs.dirs.filter (fun d => d ≠ tempDir) }

/-- `ExtractArchive` (extractor.go): on open failure no directory is created;
on a per-entry extraction failure the fresh directory is removed again;
on success the fresh directory is returned, still extant. -/
def ExtractArchive (openOk entriesOk : Bool) (newDir : String) (fs : FS) :
    Except String String × FS :=
  if openOk = false then (Except.error "failed to open 3MF archive", fs)
  else
    let fs1 : FS := { dirs := newDir :: fs.dirs }
    if entriesOk = false then
      (Except.error "failed to extract file", CleanupTemp newDir fs1)
    else (Except.ok newDir, fs1)

/-- `Parse3MF` (parser.go) with the scratch-directory life cycle made
explicit.  `modelDoc` / `settingsDoc` abstract the outcomes of
`ParseModel3D` / `ParseModelSettings`; the deferred `CleanupTemp` runs on
every return path after a successful extraction. -/
def Parse3MF (pf : String → Option ℚ) (env : String → Option Model3D)
    (openOk entriesOk : Bool) (newDir : String)
    (modelDoc : Option Model3D) (settingsDoc : Option ModelSettings) (fs : FS) :
    Except String Parser3MF × FS :=
  match ExtractArchive openOk entriesOk newDir fs with
  | (Except.error e, fs1) => (Except.error ("failed to extract 3MF archive: " ++ e), fs1)
  | (Except.ok extractDir, fs1) =>
    match modelDoc with
    | none => (Except.error "failed to parse main model", CleanupTemp extractDir fs1)
    | some model =>
      match settingsDoc with
      | none => (Except.error "failed to parse model settings", CleanupTemp extractDir fs1)
      | some settings =>
        (Except.ok (parse3MFCore pf env model settings), CleanupTemp extractDir fs1)

/-- `GroupObjectsByName`'s composite key `obj.Name + "|" + obj.Type`. -/
def groupKey (obj : PlateObject) : String := obj.Name ++ "|" ++ obj.Type'

/-- One step of `GroupObjectsByName`'s loop: seed a new group with count 1,
or bump the count and extend the id list of the existing group. -/
def groupStep (groups : List (String × GroupedObject)) (obj : PlateObject) :
    List (String × GroupedObject) :=
  let key := groupKey obj
  match mapLookup groups key with
  | some existing =>
    mapInsert groups key
      { existing with Count := existing.Count + 1, ObjectIDs := existing.ObjectIDs ++ [obj.ID] }
  | none =>
    mapInsert groups key
      { Name := obj.Name, Type' := obj.Type', Material := "", Count := 1,
        Components := obj.Components, ObjectIDs := [obj.ID] }

/-- `GroupObjectsByName` (the grouping engine): a single linear pass keyed
by `name + "|" + kind`.  The Go map is modelled as an association list. -/
def GroupObjectsByName (objects : List PlateObject) : List (String × GroupedObject) :=
  objects.foldl groupStep []

/-- The group that `GroupObjectsByName` builds for a key whose matching
objects (in input order) are the given list: seeded by the first member,
counting and collecting ids over all members. -/
def seedGroup : List PlateObject → Option GroupedObject
  | [] => none
  | o :: rest =>
    some { Name := o.Name, Type' := o.Type', Material := "", Count := rest.length + 1,
           Components := o.Components, ObjectIDs := o.ID :: rest.map PlateObject.ID }

/-- Modelled from the spec, for the refinement comparison of claim C2:
strip the embedded metadata overlay (plate metadata, per-plate instance
lists, and top-level instance metadata) from a settings document. -/
def stripOverlayMetadata (settings : ModelSettings) : ModelSettings :=
  { settings with
    Plates := settings.Plates.map (fun p => { p with Metadata := [], Instances := [] })
    Instances := settings.Instances.map (fun i => { i with Metadata := [] }) }

/-- A numeric-token parser that always fails (used for concrete instances). -/
def pfNone : String → Option ℚ := fun _ => none

/-- A sub-assembly environment with no readable documents. -/
def envNone : String → Option Model3D := fun _ => none

/-- A numeric-token parser accepting only the token `"1"`. -/
def pfOne : String → Option ℚ := fun t => if t = "1" then some 1 else none

/-- A component carrying no external reference: no path attribute. -/
def c1comp : Component := { ObjectID := 5, Transform := "", Path := "" }

/-- A components collection holding only `c1comp`. -/
def c1comps : ComponentsCollection := { Components := [c1comp] }

/-- A component whose path names a missing sub-assembly document. -/
def c4drop : Component := { ObjectID := 1, Transform := "", Path := "missing.model" }

/-- A component whose path does not end in the sub-assembly extension. -/
def c4keep : Component := { ObjectID := 2, Transform := "", Path := "part.stl" }

/-- A components collection holding `c4drop` and `c4keep`. -/
def c4comps : ComponentsCollection := { Components := [c4drop, c4keep] }

/-- A part whose metadata carries a `name` entry. -/
def w5part : PartMeta :=
  { ID := 3, Name := "", SourceFile := "", Metadata := [{ Key := "name", Value := "Widget" }] }

/-- An object with no object-level `name` metadata and exactly one part. -/
def w5obj : ObjectMeta := { ID := 7, Name := "", Metadata := [], Parts := [w5part] }

/-- Two plate objects whose composite grouping keys collide:
`"a|b" + "|" + "c"` equals `"a" + "|" + "b|c"`. -/
def c6objs : List PlateObject :=
  [{ ID := 1, Name := "a|b", Type' := "c", Material := "", Position := { Matrix := [] },
     Printable := true, Components := [] },
   { ID := 2, Name := "a", Type' := "b|c", Material := "", Position := { Matrix := [] },
     Printable := true, Components := [] }]

/-- Two plate objects sharing the same (name, kind). -/
def c6wobjs : List PlateObject :=
  [{ ID := 1, Name := "A", Type' := "mesh", Material := "", Position := { Matrix := [] },
     Printable := true, Components := [] },
   { ID := 2, Name := "A", Type' := "mesh", Material := "", Position := { Matrix := [] },
     Printable := true, Components := [] }]

/-- A single plate object carrying a non-empty material. -/
def c7objs : List PlateObject :=
  [{ ID := 7, Name := "W", Type' := "mesh", Material := "PLA", Position := { Matrix := [] },
     Printable := true, Components := [] }]

/-- Two plate objects with the same (name, kind); the first carries a
component list. -/
def c7wobjs : List PlateObject :=
  [{ ID := 1, Name := "B", Type' := "mesh", Material := "", Position := { Matrix := [] },
     Printable := true,
     Components := [{ ID := 9, Name := "n", SourceFile := "s", Transform := { Matrix := [] } }] },
   { ID := 2, Name := "B", Type' := "mesh", Material := "", Position := { Matrix := [] },
     Printable := true, Components := [] }]

/-- A plate whose embedded metadata contradicts its structural
`plater_id` / `plater_name` attributes. -/
def c2plate : Plate :=
  { PlaterID := 1, PlaterName := "A",
    Metadata := [{ Key := "plater_id", Value := "2" },
                 { Key := "plater_name", Value := "B" }],
    Instances := [] }

/-- A settings document with metadata overrides on its plate and on its
top-level instance entry. -/
def c2settings : ModelSettings :=
  { Plates := [c2plate],
    Instances := [{ ObjectID := 10, InstanceID := 1, IdentifyID := 0,
                    Metadata := [{ Key := "object_id", Value := "20" },
                                 { Key := "instance_id", Value := "2" }] }],
    Objects := [], Parts := [] }

/-- A model document with one mesh resource and one build item. -/
def c2model : Model3D :=
  { Unit := "mm",
    Resources := [{ ID := 10, Type' := "", Name := "",
                    Mesh := some { Vertices := [], Triangles := [] }, Components := none }],
    Build := [{ ObjectID := 10, Transform := "", Printable := none }] }

/-- A model document whose build list contains a dangling reference (99). -/
def w8model : Model3D :=
  { Unit := "",
    Resources := [{ ID := 1, Type' := "", Name := "",
                    Mesh := some { Vertices := [], Triangles := [] }, Components := none }],
    Build := [{ ObjectID := 1, Transform := "", Printable := none },
              { ObjectID := 99, Transform := "", Printable := none }] }

/-- A settings document with a single plate and nothing else. -/
def w8settings : ModelSettings :=
  { Plates := [{ PlaterID := 1, PlaterName := "P", Metadata := [], Instances := [] }],
    Instances := [], Objects := [], Parts := [] }

section MapLemmas

variable {α β : Type} [DecidableEq α]

theorem mapLookup_mapInsert_self (m : List (α × β)) (k : α) (v : β) :
    mapLookup (mapInsert m k v) k = some v := by
  induction m with
  | nil => simp [mapInsert, mapLookup]
  | cons hd tl ih =>
    obtain ⟨k', v'⟩ := hd
    by_cases h : k' = k <;> simp [mapInsert, mapLookup, h, ih]

theorem mapLookup_mapInsert_ne (m : List (α × β)) (k k' : α) (v : β) (h : k' ≠ k) :
    mapLookup (mapInsert m k v) k' = mapLookup m k' := by
  have hkk : ¬ (k = k') := fun e => h e.symm
  induction m with
  | nil => simp [mapInsert, mapLookup, if_neg hkk]
  | cons hd tl ih =>
    obtain ⟨k0, v0⟩ := hd
    simp only [mapInsert]
    by_cases h0 : k0 = k
    · rw [if_pos h0]
      have hk0 : ¬ (k0 = k') := by rw [h0]; exact hkk
      simp only [mapLookup, if_neg hkk, if_neg hk0]
    · rw [if_neg h0]
      simp only [mapLookup]
      by_cases h1 : k0 = k'
      · rw [if_pos h1, if_pos h1]
      · rw [if_neg h1, if_neg h1]
        exact ih

theorem mem_mapInsert (m : List (α × β)) (k : α) (v : β) (x : α × β)
    (hx : x ∈ mapInsert m k v) : x = (k, v) ∨ x ∈ m := by
  induction m with
  | nil => simpa [mapInsert] using hx
  | cons hd tl ih =>
    obtain ⟨k0, v0⟩ := hd
    by_cases h0 : k0 = k
    · simp only [mapInsert, if_pos h0] at hx
      rcases List.mem_cons.mp hx with h | h
      · exact Or.inl h
      · exact Or.inr (List.mem_cons_of_mem _ h)
    · simp only [mapInsert, if_neg h0] at hx
      rcases List.mem_cons.mp hx with h | h
      · exact Or.inr (h ▸ List.mem_cons_self _ _)
      · rcases ih h with h' | h'
        · exact Or.inl h'
        · exact Or.inr (List.mem_cons_of_mem _ h')

theorem mapLookup_mem (m : List (α × β)) (k : α) (v : β)
    (h : mapLookup m k = some v) : (k, v) ∈ m := by
  induction m with
  | nil => simp [mapLookup] at h
  | cons hd tl ih =>
    obtain ⟨k0, v0⟩ := hd
    by_cases h0 : k0 = k
    · simp only [mapLookup, if_pos h0, Option.some.injEq] at h
      subst h0
      subst h
      exact List.mem_cons_self _ _
    · simp only [mapLookup, if_neg h0] at h
      exact List.mem_cons_of_mem _ (ih h)

theorem mapLookup_eq_none_of_not_mem (m : List (α × β)) (k : α)
    (h : k ∉ m.map Prod.fst) : mapLookup m k = none := by
  induction m with
  | nil => simp [mapLookup]
  | cons hd tl ih =>
    obtain ⟨k0, v0⟩ := hd
    simp only [List.map_cons, List.mem_cons] at h
    push_neg at h
    simp only [mapLookup, if_neg (Ne.symm h.1)]
    exact ih h.2

theorem keys_mapInsert (m : List (α × β)) (k : α) (v : β) :
    (mapInsert m k v).map Prod.fst = m.map Prod.fst
      ∨ (mapInsert m k v).map Prod.fst = m.map Prod.fst ++ [k] := by
  induction m with
  | nil => simp [mapInsert]
  | cons hd tl ih =>
    obtain ⟨k0, v0⟩ := hd
    by_cases h0 : k0 = k
    · subst h0
      simp [mapInsert]
    · rcases ih with h | h <;> simp [mapInsert, h0, h]

theorem keys_nodup_mapInsert (m : List (α × β)) (k : α) (v : β)
    (h : (m.map Prod.fst).Nodup) : ((mapInsert m k v).map Prod.fst).Nodup := by
  induction m with
  | nil => simp [mapInsert]
  | cons hd tl ih =>
    obtain ⟨k0, v0⟩ := hd
    simp only [List.map_cons, List.nodup_cons] at h
    by_cases h0 : k0 = k
    · subst h0
      simpa [mapInsert] using h
    · simp only [mapInsert, if_neg h0, List.map_cons, List.nodup_cons]
      refine ⟨?_, ih h.2⟩
      rcases keys_mapInsert tl k v with hk | hk <;> rw [hk]
      · exact h.1
      · simp only [List.mem_append, List.mem_singleton]
        push_neg
        exact ⟨h.1, h0⟩

theorem mapLookup_of_mem_of_nodup (m : List (α × β)) (k : α) (v : β)
    (hnd : (m.map Prod.fst).Nodup) (hmem : (k, v) ∈ m) : mapLookup m k = some v := by
  induction m with
  | nil => simp at hmem
  | cons hd tl ih =>
    obtain ⟨k0, v0⟩ := hd
    simp only [List.map_cons, List.nodup_cons] at hnd
    rcases List.mem_cons.mp hmem with h | h
    · have hk : k0 = k := (congrArg Prod.fst h).symm
      have hv : v0 = v := (congrArg Prod.snd h).symm
      simp [mapLookup, hk, hv]
    · have hk0 : k0 ≠ k := by
        intro e
        subst e
        exact hnd.1 (List.mem_map.mpr ⟨(k0, v), h, rfl⟩)
      simp only [mapLookup, if_neg hk0]
      exact ih hnd.2 h

theorem mapLookup_foldl_mapInsert_none {γ : Type} (key : γ → α) (val : γ → β)
    (l : List γ) (init : List (α × β)) (k : α)
    (hl : ∀ x ∈ l, key x ≠ k) (hinit : mapLookup init k = none) :
    mapLookup (l.foldl (fun m x => mapInsert m (key x) (val x)) init) k = none := by
  induction l generalizing init with
  | nil => simpa using hinit
  | cons hd tl ih =>
    simp only [List.foldl_cons]
    refine ih _ (fun x hx => hl x (List.mem_cons_of_mem _ hx)) ?_
    rw [mapLookup_mapInsert_ne _ _ _ _ (fun e => hl hd (List.mem_cons_self _ _) e.symm)]
    exact hinit

theorem mem_foldl_mapInsert {γ : Type} (key : γ → α) (val : γ → β)
    (R : β → Prop) (l : List γ) (init : List (α × β))
    (hinit : ∀ kp ∈ init, R kp.2) (hval : ∀ x ∈ l, R (val x)) :
    ∀ kp ∈ l.foldl (fun m x => mapInsert m (key x) (val x)) init, R kp.2 := by
  induction l generalizing init with
  | nil => simpa using hinit
  | cons hd tl ih =>
    simp only [List.foldl_cons]
    refine ih _ ?_ (fun x hx => hval x (List.mem_cons_of_mem _ hx))
    intro kp hkp
    rcases mem_mapInsert _ _ _ _ hkp with h | h
    · rw [h]
      exact hval hd (List.mem_cons_self _ _)
    · exact hinit kp h

end MapLemmas

section GroupLemmas

theorem mapLookup_groupStep_ne (groups : List (String × GroupedObject)) (obj : PlateObject)
    (k : String) (hk : groupKey obj ≠ k) :
    mapLookup (groupStep groups obj) k = mapLookup groups k := by
  simp only [groupStep]
  cases mapLookup groups (groupKey obj) with
  | none => exact mapLookup_mapInsert_ne _ _ _ _ (Ne.symm hk)
  | some existing => exact mapLookup_mapInsert_ne _ _ _ _ (Ne.symm hk)

theorem groupFold_lookup_some (objs : List PlateObject)
    (acc : List (String × GroupedObject)) (k : String) (g : GroupedObject)
    (h : mapLookup acc k = some g) :
    mapLookup (objs.foldl groupStep acc) k =
      some { g with
             Count := g.Count + (objs.filter (fun o => groupKey o == k)).length,
             ObjectIDs := g.ObjectIDs
               ++ (objs.filter (fun o => groupKey o == k)).map PlateObject.ID } := by
  induction objs generalizing acc g with
  | nil => simpa using h
  | cons o rest ih =>
    simp only [List.foldl_cons]
    by_cases hk : groupKey o = k
    · have hpred : (groupKey o == k) = true := beq_iff_eq.mpr hk
      have hlk : mapLookup acc (groupKey o) = some g := by rw [hk]; exact h
      have hins : mapLookup
          (mapInsert acc (groupKey o)
            { g with Count := g.Count + 1, ObjectIDs := g.ObjectIDs ++ [o.ID] }) k =
          some { g with Count := g.Count + 1, ObjectIDs := g.ObjectIDs ++ [o.ID] } := by
        rw [← hk]
        exact mapLookup_mapInsert_self _ _ _
      simp only [groupStep, hlk]
      rw [ih _ _ hins]
      simp only [List.filter_cons, hpred, if_true, List.length_cons, List.map_cons,
        Option.some.injEq, GroupedObject.mk.injEq, true_and, and_true]
      exact ⟨by omega, by simp⟩
    · have hpred : (groupKey o == k) = false := beq_eq_false_iff_ne.mpr hk
      rw [show List.filter (fun o => groupKey o == k) (o :: rest)
            = List.filter (fun o => groupKey o == k) rest by
          simp [List.filter_cons, hpred]]
      exact ih (groupStep acc o) g
        ((mapLookup_groupStep_ne acc o k hk).trans h)

theorem groupFold_lookup_none (objs : List PlateObject)
    (acc : List (String × GroupedObject)) (k : String)
    (h : mapLookup acc k = none) :
    mapLookup (objs.foldl groupStep acc) k =
      seedGroup (objs.filter (fun o => groupKey o == k)) := by
  induction objs generalizing acc with
  | nil => simpa [seedGroup] using h
  | cons o rest ih =>
    simp only [List.foldl_cons]
    by_cases hk : groupKey o = k
    · have hpred : (groupKey o == k) = true := beq_iff_eq.mpr hk
      have hlk : mapLookup acc (groupKey o) = none := by rw [hk]; exact h
      have hins : mapLookup
          (mapInsert acc (groupKey o)
            { Name := o.Name, Type' := o.Type', Material := "", Count := 1,
              Components := o.Components, ObjectIDs := [o.ID] }) k =
          some { Name := o.Name, Type' := o.Type', Material := "", Count := 1,
                 Components := o.Components, ObjectIDs := [o.ID] } := by
        rw [← hk]
        exact mapLookup_mapInsert_self _ _ _
      simp only [groupStep, hlk]
      rw [groupFold_lookup_some rest _ k _ hins]
      simp only [List.filter_cons, hpred, if_true, seedGroup, Option.some.injEq,
        GroupedObject.mk.injEq, true_and, and_true]
      exact ⟨by omega, by simp⟩
    · have hpred : (groupKey o == k) = false := beq_eq_false_iff_ne.mpr hk
      rw [show List.filter (fun o => groupKey o == k) (o :: rest)
            = List.filter (fun o => groupKey o == k) rest by
          simp [List.filter_cons, hpred]]
      exact ih (groupStep acc o) ((mapLookup_groupStep_ne acc o k hk).trans h)

theorem groupObjects_lookup (objs : List PlateObject) (k : String) :
    mapLookup (GroupObjectsByName objs) k =
      seedGroup (objs.filter (fun o => groupKey o == k)) :=
  groupFold_lookup_none objs [] k rfl

theorem keys_nodup_groupFold (objs : List PlateObject)
    (acc : List (String × GroupedObject)) (h : (acc.map Prod.fst).Nodup) :
    (((objs.foldl groupStep acc)).map Prod.fst).Nodup := by
  induction objs generalizing acc with
  | nil => simpa using h
  | cons o rest ih =>
    simp only [List.foldl_cons]
    refine ih (groupStep acc o) ?_
    simp only [groupStep]
    cases mapLookup acc (groupKey o) with
    | none => exact keys_nodup_mapInsert _ _ _ h
    | some existing => exact keys_nodup_mapInsert _ _ _ h

theorem sum_mapInsert_of_lookup_some {α β : Type} [DecidableEq α] (f : β → ℕ)
    (m : List (α × β)) (k : α) (v v' : β) (h : mapLookup m k = some v) :
    ((mapInsert m k v').map (fun kp => f kp.2)).sum + f v
      = (m.map (fun kp => f kp.2)).sum + f v' := by
  induction m with
  | nil => simp [mapLookup] at h
  | cons hd tl ih =>
    obtain ⟨k0, v0⟩ := hd
    by_cases h0 : k0 = k
    · simp only [mapLookup, if_pos h0, Option.some.injEq] at h
      subst h
      simp only [mapInsert, if_pos h0, List.map_cons, List.sum_cons]
      omega
    · simp only [mapLookup, if_neg h0] at h
      have := ih h
      simp only [mapInsert, if_neg h0, List.map_cons, List.sum_cons]
      omega

theorem sum_mapInsert_of_lookup_none {α β : Type} [DecidableEq α] (f : β → ℕ)
    (m : List (α × β)) (k : α) (v' : β) (h : mapLookup m k = none) :
    ((mapInsert m k v').map (fun kp => f kp.2)).sum
      = (m.map (fun kp => f kp.2)).sum + f v' := by
  induction m with
  | nil => simp [mapInsert]
  | cons hd tl ih =>
    obtain ⟨k0, v0⟩ := hd
    by_cases h0 : k0 = k
    · simp [mapLookup, if_pos h0] at h
    · simp only [mapLookup, if_neg h0] at h
      have := ih h
      simp only [mapInsert, if_neg h0, List.map_cons, List.sum_cons]
      omega

theorem sum_groupStep (acc : List (String × GroupedObject)) (obj : PlateObject) :
    ((groupStep acc obj).map (fun kg => kg.2.Count)).sum
      = (acc.map (fun kg => kg.2.Count)).sum + 1 := by
  cases h : mapLookup acc (groupKey obj) with
  | none =>
    simp only [groupStep, h]
    exact sum_mapInsert_of_lookup_none (fun g => g.Count) acc (groupKey obj) _ h
  | some existing =>
    simp only [groupStep, h]
    have hlem := sum_mapInsert_of_lookup_some (fun g => g.Count) acc (groupKey obj) existing ({ existing with Count := existing.Count + 1, ObjectIDs := existing.ObjectIDs ++ [obj.ID] }) h
    dsimp only at hlem
    omega

theorem sum_groupFold (objs : List PlateObject) (acc : List (String × GroupedObject)) :
    ((objs.foldl groupStep acc).map (fun kg => kg.2.Count)).sum
      = (acc.map (fun kg => kg.2.Count)).sum + objs.length := by
  induction objs generalizing acc with
  | nil => simp
  | cons o rest ih =>
    simp only [List.foldl_cons, List.length_cons]
    rw [ih (groupStep acc o), sum_groupStep]
    omega

theorem append_pipe_inj : ∀ (a c : List Char), '|' ∉ a → '|' ∉ c →
    ∀ (b d : List Char), a ++ '|' :: b = c ++ '|' :: d → a = c ∧ b = d
  | [], [], _, _, b, d, h => by simpa using h
  | [], y :: c', _, hc, b, d, h => by
    simp only [List.nil_append, List.cons_append] at h
    injection h with h1 h2
    exact absurd (show ('|' : Char) ∈ y :: c' by rw [h1]; exact List.mem_cons_self _ _) hc
  | x :: a', [], ha, _, b, d, h => by
    simp only [List.cons_append, List.nil_append] at h
    injection h with h1 h2
    exact absurd (show ('|' : Char) ∈ x :: a' by rw [← h1]; exact List.mem_cons_self _ _) ha
  | x :: a', y :: c', ha, hc, b, d, h => by
    simp only [List.cons_append] at h
    injection h with h1 h2
    have ha' : '|' ∉ a' := fun hm => ha (List.mem_cons_of_mem _ hm)
    have hc' : '|' ∉ c' := fun hm => hc (List.mem_cons_of_mem _ hm)
    obtain ⟨he, hb⟩ := append_pipe_inj a' c' ha' hc' b d h2
    exact ⟨by rw [h1, he], hb⟩

theorem groupKey_eq_iff (o' : PlateObject) (name ty : String)
    (ho : '|' ∉ o'.Name.data) (hn : '|' ∉ name.data) :
    groupKey o' = name ++ "|" ++ ty ↔ (o'.Name = name ∧ o'.Type' = ty) := by
  have hpipe : ("|" : String).data = ['|'] := rfl
  constructor
  · intro h
    have hd := congrArg String.data h
    simp only [groupKey, String.data_append, hpipe, List.append_assoc,
      List.singleton_append] at hd
    obtain ⟨h1, h2⟩ := append_pipe_inj _ _ ho hn _ _ hd
    exact ⟨String.ext h1, String.ext h2⟩
  · rintro ⟨h1, h2⟩
    rw [groupKey, h1, h2]

theorem groupObjects_mem_characterization (objects : List PlateObject)
    (kg : String × GroupedObject) (hkg : kg ∈ GroupObjectsByName objects) :
    ∃ o rest, objects.filter (fun o' => groupKey o' == kg.1) = o :: rest
      ∧ kg.2 = { Name := o.Name, Type' := o.Type', Material := "", Count := rest.length + 1,
                 Components := o.Components, ObjectIDs := o.ID :: rest.map PlateObject.ID }
      ∧ groupKey o = kg.1 ∧ o ∈ objects := by
  have hnd := keys_nodup_groupFold objects [] (by simp)
  have hlk : mapLookup (GroupObjectsByName objects) kg.1 = some kg.2 :=
    mapLookup_of_mem_of_nodup _ _ _ hnd hkg
  rw [groupObjects_lookup] at hlk
  cases hfil : objects.filter (fun o' => groupKey o' == kg.1) with
  | nil =>
    rw [hfil] at hlk
    simp [seedGroup] at hlk
  | cons o rest =>
    rw [hfil] at hlk
    simp only [seedGroup, Option.some.injEq] at hlk
    have homem : o ∈ objects.filter (fun o' => groupKey o' == kg.1) := by
      rw [hfil]
      exact List.mem_cons_self _ _
    refine ⟨o, rest, rfl, hlk.symm, ?_, List.mem_of_mem_filter homem⟩
    have hpred := (List.mem_filter.mp homem).2
    exact beq_iff_eq.mp hpred

theorem groupObjects_filter_pair (objects : List PlateObject)
    (hsep : ∀ o ∈ objects, '|' ∉ o.Name.data) (kg : String × GroupedObject)
    (hkg : kg ∈ GroupObjectsByName objects) :
    ∃ o rest,
      objects.filter (fun o' => o'.Name == kg.2.Name && o'.Type' == kg.2.Type') = o :: rest
      ∧ kg.2 = { Name := o.Name, Type' := o.Type', Material := "", Count := rest.length + 1,
                 Components := o.Components, ObjectIDs := o.ID :: rest.map PlateObject.ID } := by
  obtain ⟨o, rest, hfil, hkg2, hkey, homem⟩ := groupObjects_mem_characterization objects kg hkg
  have hname : kg.2.Name = o.Name := by rw [hkg2]
  have hty : kg.2.Type' = o.Type' := by rw [hkg2]
  have hkeq : kg.1 = kg.2.Name ++ "|" ++ kg.2.Type' := by
    rw [hname, hty, ← hkey, groupKey]
  have hfcongr : objects.filter (fun o' => groupKey o' == kg.1)
      = objects.filter (fun o' => o'.Name == kg.2.Name && o'.Type' == kg.2.Type') := by
    apply List.filter_congr
    intro x hx
    have hxn : '|' ∉ x.Name.data := hsep x hx
    have hgn : '|' ∉ kg.2.Name.data := by
      rw [hname]
      exact hsep o homem
    have hiff : groupKey x = kg.1 ↔ (x.Name = kg.2.Name ∧ x.Type' = kg.2.Type') := by
      rw [hkeq]
      exact groupKey_eq_iff x kg.2.Name kg.2.Type' hxn hgn
    by_cases hxeq : groupKey x = kg.1
    · have hpair := hiff.mp hxeq
      have h1 : (groupKey x == kg.1) = true := beq_iff_eq.mpr hxeq
      have h2 : (x.Name == kg.2.Name && x.Type' == kg.2.Type') = true := by
        simp [Bool.and_eq_true, beq_iff_eq, hpair.1, hpair.2]
      rw [h1, h2]
    · have h1 : (groupKey x == kg.1) = false := beq_eq_false_iff_ne.mpr hxeq
      have h2 : (x.Name == kg.2.Name && x.Type' == kg.2.Type') = false := by
        cases hb : (x.Name == kg.2.Name && x.Type' == kg.2.Type') with
        | false => rfl
        | true =>
          exfalso
          apply hxeq
          apply hiff.mpr
          simp only [Bool.and_eq_true, beq_iff_eq] at hb
          exact hb
      rw [h1, h2]
  exact ⟨o, rest, by rw [← hfcongr, hfil], hkg2⟩

end GroupLemmas

/-- Claim C6 (corrected): the total count over all groups always equals
the input length; and — provided no object name contains the key
separator `|`, without which distinct (name, kind) pairs can collide on
the composite key, contrary to the claim — each group's id list is
exactly the ids of the inputs with that group's (name, kind), in input
order. -/
theorem groupObjectsByName_partitions (objects : List PlateObject) :
    ((GroupObjectsByName objects).map (fun kg => kg.2.Count)).sum = objects.length
    ∧ ((∀ o ∈ objects, '|' ∉ o.Name.data) →
        ∀ kg ∈ GroupObjectsByName objects,
          kg.2.ObjectIDs
            = (objects.filter
                (fun o => o.Name == kg.2.Name && o.Type' == kg.2.Type')).map PlateObject.ID) := by
  constructor
  · have h := sum_groupFold objects []
    simpa [GroupObjectsByName] using h
  · intro hsep kg hkg
    obtain ⟨o, rest, hfil, hkg2⟩ := groupObjects_filter_pair objects hsep kg hkg
    rw [hfil, hkg2]
    rfl

/-- Counterexample for C6: with names containing the separator `|`, two
objects with distinct (name, kind) land in one group, so that group's id
list is not the ids of the inputs with its (name, kind). -/
theorem groupObjectsByName_partitions_counterexample :
    (GroupObjectsByName c6objs).map Prod.snd
      = [{ Name := "a|b", Type' := "c", Material := "", Count := 2, Components := [],
           ObjectIDs := [1, 2] }]
    ∧ (c6objs.filter (fun o => o.Name == "a|b" && o.Type' == "c")).map PlateObject.ID = [1]
    ∧ ([1, 2] : List Int) ≠ [1] :=
  ⟨rfl, rfl, by decide⟩

/-- Witness for C6: two identical (name, kind) objects group to count 2. -/
theorem groupObjectsByName_partitions_witness :
    ((GroupObjectsByName c6wobjs).map (fun kg => kg.2.Count)).sum = c6wobjs.length
    ∧ (("A|mesh",
        { Name := "A", Type' := "mesh", Material := "", Count := 2, Components := [],
          ObjectIDs := [1, 2] }) : String × GroupedObject).2.ObjectIDs
        = (c6wobjs.filter
            (fun o => o.Name == (("A|mesh",
                { Name := "A", Type' := "mesh", Material := "", Count := 2, Components := [],
                  ObjectIDs := [1, 2] }) : String × GroupedObject).2.Name
              && o.Type' == (("A|mesh",
                { Name := "A", Type' := "mesh", Material := "", Count := 2, Components := [],
                  ObjectIDs := [1, 2] }) : String × GroupedObject).2.Type')).map
            PlateObject.ID :=
  ⟨(groupObjectsByName_partitions c6wobjs).1,
   (groupObjectsByName_partitions c6wobjs).2 (by decide) _ (by decide)⟩

/-- Claim C7 (corrected): each group's component list is copied verbatim
from the first input with that (name, kind) (keys assumed unambiguous:
no `|` in names), but — contrary to the claim — the group's material is
never copied: it is always the empty string. -/
theorem groupObjectsByName_first_member (objects : List PlateObject)
    (hsep : ∀ o ∈ objects, '|' ∉ o.Name.data) :
    ∀ kg ∈ GroupObjectsByName objects,
      kg.2.Material = ""
      ∧ (objects.filter
          (fun o => o.Name == kg.2.Name && o.Type' == kg.2.Type')).head?.map
            PlateObject.Components = some kg.2.Components := by
  intro kg hkg
  obtain ⟨o, rest, hfil, hkg2⟩ := groupObjects_filter_pair objects hsep kg hkg
  constructor
  · rw [hkg2]
  · rw [hfil, hkg2]
    rfl

/-- Counterexample for C7: a singleton input with material `"PLA"` yields
a group whose material is `""`, not the first member's material. -/
theorem groupObjectsByName_first_member_counterexample :
    (GroupObjectsByName c7objs).map Prod.snd
      = [{ Name := "W", Type' := "mesh", Material := "", Count := 1, Components := [],
           ObjectIDs := [7] }]
    ∧ c7objs.head?.map PlateObject.Material = some "PLA"
    ∧ ("" : String) ≠ "PLA" :=
  ⟨rfl, rfl, by decide⟩

/-- Witness for C7: the group's components come from the first member. -/
theorem groupObjectsByName_first_member_witness :
    (("B|mesh",
      { Name := "B", Type' := "mesh", Material := "", Count := 2,
        Components := [{ ID := 9, Name := "n", SourceFile := "s",
                         Transform := { Matrix := [] } }],
        ObjectIDs := [1, 2] }) : String × GroupedObject).2.Material = ""
    ∧ (c7wobjs.filter
        (fun o => o.Name == (("B|mesh",
            { Name := "B", Type' := "mesh", Material := "", Count := 2,
              Components := [{ ID := 9, Name := "n", SourceFile := "s",
                               Transform := { Matrix := [] } }],
              ObjectIDs := [1, 2] }) : String × GroupedObject).2.Name
          && o.Type' == (("B|mesh",
            { Name := "B", Type' := "mesh", Material := "", Count := 2,
              Components := [{ ID := 9, Name := "n", SourceFile := "s",
                               Transform := { Matrix := [] } }],
              ObjectIDs := [1, 2] }) : String × GroupedObject).2.Type')).head?.map
        PlateObject.Components
      = some (("B|mesh",
          { Name := "B", Type' := "mesh", Material := "", Count := 2,
            Components := [{ ID := 9, Name := "n", SourceFile := "s",
                             Transform := { Matrix := [] } }],
            ObjectIDs := [1, 2] }) : String × GroupedObject).2.Components :=
  groupObjectsByName_first_member c7wobjs (by decide) _ (by decide)

/-- Claim C3 (confirmed): `ParseTransform` is total (always yields a
12-element matrix, never an error); a 12-token input yields the parsed
token values in order, with a failed token left at its zero default; an
empty string or a wrong token count yields the identity matrix. -/
theorem parseTransform_lenient (pf : String → Option ℚ) (s : String) :
    (ParseTransform pf s).Matrix.length = 12
    ∧ ((goFields s).length = 12 →
        (ParseTransform pf s).Matrix = (goFields s).map (fun t => (pf t).getD 0))
    ∧ ((goFields s).length ≠ 12 →
        (ParseTransform pf s).Matrix = identityMatrix) := by
  by_cases hs : s = ""
  · subst hs
    refine ⟨rfl, ?_, fun _ => rfl⟩
    intro h
    have hf : goFields "" = [] := rfl
    rw [hf] at h
    simp at h
  · by_cases hl : (goFields s).length = 12
    · have heq : ParseTransform pf s
          = { Matrix := (goFields s).map (fun t => (pf t).getD 0) } := by
        simp [ParseTransform, hs, hl]
      refine ⟨?_, fun _ => by rw [heq], fun hc => absurd hl hc⟩
      rw [heq]
      simp [hl]
    · have heq : ParseTransform pf s = { Matrix := identityMatrix } := by
        simp [ParseTransform, hs, hl]
      exact ⟨by rw [heq]; rfl, fun h => absurd h hl, fun _ => by rw [heq]⟩

/-- Witness for C3: a 12-token string with one malformed token. -/
theorem parseTransform_lenient_witness :
    (goFields "1 1 1 x 1 1 1 1 1 1 1 1").length = 12
    ∧ (ParseTransform pfOne "1 1 1 x 1 1 1 1 1 1 1 1").Matrix
        = (goFields "1 1 1 x 1 1 1 1 1 1 1 1").map (fun t => (pfOne t).getD 0) :=
  ⟨by decide, (parseTransform_lenient pfOne "1 1 1 x 1 1 1 1 1 1 1 1").2.1 (by decide)⟩

/-- Claim C5 (confirmed): object display-name resolution takes the
object-level `name` metadata when non-empty; else, for an object with
exactly one part, that part's non-empty `name` metadata; else the
synthetic `Object_<id>` placeholder — in particular for an object with
zero or two-plus parts, or with no name metadata anywhere. -/
theorem getObjectNameFromParts_chain (obj : ObjectMeta) :
    (extractMetadataValue obj.Metadata "name" ≠ "" →
      getObjectNameFromParts obj = extractMetadataValue obj.Metadata "name")
    ∧ (∀ p, obj.Parts = [p] → extractMetadataValue obj.Metadata "name" = "" →
        extractMetadataValue p.Metadata "name" ≠ "" →
        getObjectNameFromParts obj = extractMetadataValue p.Metadata "name")
    ∧ (extractMetadataValue obj.Metadata "name" = "" → obj.Parts.length ≠ 1 →
        getObjectNameFromParts obj = "Object_" ++ toString obj.ID)
    ∧ (extractMetadataValue obj.Metadata "name" = "" →
        (∀ p ∈ obj.Parts, extractMetadataValue p.Metadata "name" = "") →
        getObjectNameFromParts obj = "Object_" ++ toString obj.ID) := by
  refine ⟨?_, ?_, ?_, ?_⟩
  · intro h
    simp [getObjectNameFromParts, h]
  · intro p hp h hn
    simp [getObjectNameFromParts, h, hp, hn]
  · intro h hl
    cases hps : obj.Parts with
    | nil => simp [getObjectNameFromParts, h, hps]
    | cons p tl =>
      cases tl with
      | nil =>
        rw [hps] at hl
        simp at hl
      | cons q tl' => simp [getObjectNameFromParts, h, hps]
  · intro h hall
    cases hps : obj.Parts with
    | nil => simp [getObjectNameFromParts, h, hps]
    | cons p tl =>
      cases tl with
      | nil =>
        have hp := hall p (by rw [hps]; exact List.mem_cons_self _ _)
        simp [getObjectNameFromParts, h, hps, hp]
      | cons q tl' => simp [getObjectNameFromParts, h, hps]

/-- Witness for C5: a one-part object with only part-level name metadata. -/
theorem getObjectNameFromParts_chain_witness :
    w5obj.Parts = [w5part]
    ∧ extractMetadataValue w5obj.Metadata "name" = ""
    ∧ extractMetadataValue w5part.Metadata "name" ≠ ""
    ∧ getObjectNameFromParts w5obj = extractMetadataValue w5part.Metadata "name" :=
  ⟨rfl, rfl, by decide,
    (getObjectNameFromParts_chain w5obj).2.1 w5part rfl rfl (by decide)⟩

/-- Claim C1 (corrected): contrary to the claim, a component with no
external source reference at all (no path attribute and no part-level
source file indexed for its object id) is dropped from the final
component list: its resolved source file is empty, and `isEmptyAssembly`
treats an empty source file as an empty assembly. -/
theorem resolveComponent_no_source_dropped (pf : String → Option ℚ)
    (env : String → Option Model3D) (partNameMap partFileMap : List (Int × String))
    (comps : ComponentsCollection) (c : Component) (hc : c ∈ comps.Components)
    (hpath : c.Path = "") (hfile : mapLookup partFileMap c.ObjectID = none) :
    resolveComponent pf env partNameMap partFileMap c
      ∉ processAssemblyComponents pf env comps partNameMap partFileMap := by
  intro hmem
  have hsf : (resolveComponent pf env partNameMap partFileMap c).SourceFile = "" := by
    simp [resolveComponent, hpath, hfile]
  have hpred := (List.mem_filter.mp hmem).2
  rw [hsf] at hpred
  simp [isEmptyAssembly] at hpred

/-- Counterexample for C1: a path-less, file-less component does not
appear in the component list (the claim says it always appears). -/
theorem resolveComponent_no_source_counterexample :
    c1comp ∈ c1comps.Components ∧ c1comp.Path = ""
    ∧ mapLookup ([] : List (Int × String)) c1comp.ObjectID = none
    ∧ processAssemblyComponents pfNone envNone c1comps [] [] = [] :=
  ⟨List.mem_cons_self _ _, rfl, rfl, rfl⟩

/-- Witness for C1 (amended): the dropped component at a concrete input. -/
theorem resolveComponent_no_source_dropped_witness :
    resolveComponent pfNone envNone [] [] c1comp
      ∉ processAssemblyComponents pfNone envNone c1comps [] [] :=
  resolveComponent_no_source_dropped pfNone envNone [] [] c1comps c1comp
    (List.mem_cons_self _ _) rfl rfl

/-- Claim C4 (confirmed): a component whose resolved source file is
non-empty is dropped when that file ends in `.model` and its document is
unreadable or has zero resources, and kept when the file does not end in
`.model`. -/
theorem processAssemblyComponents_emptiness (pf : String → Option ℚ)
    (env : String → Option Model3D) (partNameMap partFileMap : List (Int × String))
    (comps : ComponentsCollection) (c : Component) (hc : c ∈ comps.Components)
    (hsf : (resolveComponent pf env partNameMap partFileMap c).SourceFile ≠ "") :
    (goHasSuffix (resolveComponent pf env partNameMap partFileMap c).SourceFile ".model" = true →
      (env (resolveComponent pf env partNameMap partFileMap c).SourceFile = none
        ∨ ∃ m, env (resolveComponent pf env partNameMap partFileMap c).SourceFile = some m
            ∧ m.Resources = []) →
      resolveComponent pf env partNameMap partFileMap c
        ∉ processAssemblyComponents pf env comps partNameMap partFileMap)
    ∧ (goHasSuffix (resolveComponent pf env partNameMap partFileMap c).SourceFile ".model"
          = false →
      resolveComponent pf env partNameMap partFileMap c
        ∈ processAssemblyComponents pf env comps partNameMap partFileMap) := by
  constructor
  · intro hsuf hparse hmem
    have hempty : isEmptyAssembly env
        (resolveComponent pf env partNameMap partFileMap c).SourceFile = true := by
      rcases hparse with hnone | ⟨m, hm, hres⟩
      · simp [isEmptyAssembly, hsf, hsuf, hnone]
      · simp [isEmptyAssembly, hsf, hsuf, hm, hres]
    have hpred := (List.mem_filter.mp hmem).2
    rw [hempty] at hpred
    simp at hpred
  · intro hsuf
    have hempty : isEmptyAssembly env
        (resolveComponent pf env partNameMap partFileMap c).SourceFile = false := by
      simp [isEmptyAssembly, hsf, hsuf]
    refine List.mem_filter.mpr ⟨List.mem_map.mpr ⟨c, hc, rfl⟩, ?_⟩
    simp [hempty]

theorem buildPlateObject_id (pf : String → Option ℚ) (env : String → Option Model3D)
    (objectNameMap partNameMap partFileMap : List (Int × String))
    (bi : BuildItem) (mo : ModelObject) :
    (buildPlateObject pf env objectNameMap partNameMap partFileMap bi mo).ID
      = bi.ObjectID := by
  cases hm : mo.Mesh with
  | some mesh => simp [buildPlateObject, hm]
  | none =>
    cases hcomp : mo.Components with
    | some comps => simp [buildPlateObject, hm, hcomp]
    | none => simp [buildPlateObject, hm, hcomp]

theorem buildPlateObject_material (pf : String → Option ℚ) (env : String → Option Model3D)
    (objectNameMap partNameMap partFileMap : List (Int × String))
    (bi : BuildItem) (mo : ModelObject) :
    (buildPlateObject pf env objectNameMap partNameMap partFileMap bi mo).Material = "" := by
  cases hm : mo.Mesh with
  | some mesh => simp [buildPlateObject, hm]
  | none =>
    cases hcomp : mo.Components with
    | some comps => simp [buildPlateObject, hm, hcomp]
    | none => simp [buildPlateObject, hm, hcomp]

theorem buildStep_objects_prop (pf : String → Option ℚ) (env : String → Option Model3D)
    (objectNameMap partNameMap partFileMap : List (Int × String))
    (instanceToPlateMap : List (Int × Int)) (modelObjectMap : List (Int × ModelObject))
    (Q : PlateObject → Prop)
    (hQ : ∀ bi mo, mapLookup modelObjectMap bi.ObjectID = some mo →
      Q (buildPlateObject pf env objectNameMap partNameMap partFileMap bi mo))
    (build : List BuildItem) :
    ∀ pm : List (Int × PlateInfo), (∀ kp ∈ pm, ∀ o ∈ kp.2.Objects, Q o) →
      ∀ kp ∈ build.foldl
          (buildStep pf env objectNameMap partNameMap partFileMap instanceToPlateMap
            modelObjectMap) pm,
        ∀ o ∈ kp.2.Objects, Q o := by
  induction build with
  | nil =>
    intro pm hpm
    simpa using hpm
  | cons bi rest ih =>
    intro pm hpm
    simp only [List.foldl_cons]
    apply ih
    intro kp hkp o ho
    cases hlk : mapLookup modelObjectMap bi.ObjectID with
    | none =>
      simp only [buildStep, hlk] at hkp
      exact hpm kp hkp o ho
    | some mo =>
      simp only [buildStep, hlk] at hkp
      cases hpl : mapLookup pm (findPlateForObject bi.ObjectID instanceToPlateMap pm) with
      | none =>
        rw [hpl] at hkp
        exact hpm kp hkp o ho
      | some plate =>
        rw [hpl] at hkp
        rcases mem_mapInsert _ _ _ _ hkp with heq | hmem
        · rw [heq] at ho
          rcases List.mem_append.mp ho with h | h
          · exact hpm _ (mapLookup_mem _ _ _ hpl) o h
          · rw [List.mem_singleton.mp h]
            exact hQ bi mo hlk
        · exact hpm kp hmem o ho

theorem parse3MFCore_objects_prop (pf : String → Option ℚ) (env : String → Option Model3D)
    (model : Model3D) (settings : ModelSettings) (Q : PlateObject → Prop)
    (hQ : ∀ bi mo,
      mapLookup (model.Resources.foldl (fun m obj => mapInsert m obj.ID obj) [])
          bi.ObjectID = some mo →
      Q (buildPlateObject pf env (buildObjectMetadataMap settings.Objects)
          (settings.Parts.foldl (fun m part => mapInsert m part.ID part.Name) [])
          (settings.Parts.foldl (fun m part => mapInsert m part.ID part.SourceFile) [])
          bi mo)) :
    ∀ plate ∈ (parse3MFCore pf env model settings).Plates, ∀ o ∈ plate.Objects, Q o := by
  intro plate hplate o ho
  simp only [parse3MFCore, List.mem_map] at hplate
  obtain ⟨kp, hkp, hkp2⟩ := hplate
  have hinit : ∀ kp' ∈ settings.Plates.foldl
      (fun m plate' =>
        mapInsert m plate'.PlaterID
          { PlateID := plate'.PlaterID, PlateName := plate'.PlaterName, Objects := [] })
      ([] : List (Int × PlateInfo)), ∀ o' ∈ kp'.2.Objects, Q o' := by
    have hempty := mem_foldl_mapInsert (fun plate' : Plate => plate'.PlaterID)
      (fun plate' : Plate =>
        ({ PlateID := plate'.PlaterID, PlateName := plate'.PlaterName,
           Objects := [] } : PlateInfo))
      (fun pi => pi.Objects = []) settings.Plates [] (by simp) (fun _ _ => rfl)
    intro kp' hkp' o' ho'
    rw [hempty kp' hkp'] at ho'
    simp at ho'
  have := buildStep_objects_prop pf env
    (buildObjectMetadataMap settings.Objects)
    (settings.Parts.foldl (fun m part => mapInsert m part.ID part.Name) [])
    (settings.Parts.foldl (fun m part => mapInsert m part.ID part.SourceFile) [])
    (settings.Instances.foldl (fun m inst => mapInsert m inst.ObjectID inst.InstanceID) [])
    (model.Resources.foldl (fun m obj => mapInsert m obj.ID obj) [])
    Q hQ model.Build _ hinit kp hkp o
  rw [hkp2] at this
  exact this ho

/-- Witness for C4: a `.model` reference to a missing document is
dropped; a non-`.model` reference is kept. -/
theorem processAssemblyComponents_emptiness_witness :
    resolveComponent pfNone envNone [] [] c4drop
      ∉ processAssemblyComponents pfNone envNone c4comps [] []
    ∧ resolveComponent pfNone envNone [] [] c4keep
      ∈ processAssemblyComponents pfNone envNone c4comps [] [] :=
  ⟨(processAssemblyComponents_emptiness pfNone envNone [] [] c4comps c4drop
      (by decide) (by decide)).1 (by decide) (Or.inl rfl),
   (processAssemblyComponents_emptiness pfNone envNone [] [] c4comps c4keep
      (by decide) (by decide)).2 (by decide)⟩

/-- Claim C2 (corrected): contrary to the claim, the top-level parse
takes plate ids/names and instance object/instance ids from the
structural attributes only: its result is unchanged when all plate-level
metadata, per-plate instance lists, and instance-level metadata are
stripped from the settings document.  (The metadata-override lookups
live in helper functions the top-level parse never calls.) -/
theorem parse3MFCore_structural_attributes (pf : String → Option ℚ)
    (env : String → Option Model3D) (model : Model3D) (settings : ModelSettings) :
    parse3MFCore pf env model settings
      = parse3MFCore pf env model (stripOverlayMetadata settings) := by
  simp only [parse3MFCore, stripOverlayMetadata, List.foldl_map]

/-- Counterexample for C2: a plate with structural id 1 / name "A" and
metadata overrides `plater_id = 2` / `plater_name = "B"` is indexed
under (1, "A"), not (2, "B"). -/
theorem parse3MFCore_overlay_counterexample :
    extractMetadataValue c2plate.Metadata "plater_id" = "2"
    ∧ extractMetadataValue c2plate.Metadata "plater_name" = "B"
    ∧ (parse3MFCore pfNone envNone c2model c2settings).Plates.map
        (fun p => (p.PlateID, p.PlateName)) = [((1 : Int), "A")]
    ∧ ((2 : Int), "B") ∉ [((1 : Int), "A")] :=
  ⟨rfl, rfl, rfl, by decide⟩

/-- Claim C8 (confirmed): with both documents parsed, the top-level
parse succeeds, and a build item whose object id is absent from the
model document's resources produces no plate object anywhere. -/
theorem parse3MF_dangling_reference (pf : String → Option ℚ)
    (env : String → Option Model3D) (model : Model3D) (settings : ModelSettings)
    (danglingID : Int) (newDir : String) (fs : FS)
    (hdangling : danglingID ∉ model.Resources.map ModelObject.ID) :
    (Parse3MF pf env true true newDir (some model) (some settings) fs).1
        = Except.ok (parse3MFCore pf env model settings)
    ∧ ∀ plate ∈ (parse3MFCore pf env model settings).Plates,
        ∀ o ∈ plate.Objects, o.ID ≠ danglingID := by
  constructor
  · rfl
  · apply parse3MFCore_objects_prop
    intro bi mo hlk
    rw [buildPlateObject_id]
    intro he
    rw [he] at hlk
    have hnone : mapLookup (model.Resources.foldl (fun m obj => mapInsert m obj.ID obj) [])
        danglingID = none :=
      mapLookup_foldl_mapInsert_none (fun obj => obj.ID) (fun obj => obj) model.Resources []
        danglingID
        (fun x hx he2 => hdangling (he2 ▸ List.mem_map.mpr ⟨x, hx, rfl⟩)) rfl
    rw [hnone] at hlk
    exact Option.noConfusion hlk

/-- Witness for C8: build item 99 references no resource; parsing
succeeds and no plate object has id 99. -/
theorem parse3MF_dangling_reference_witness :
    ((99 : Int) ∉ w8model.Resources.map ModelObject.ID)
    ∧ ((Parse3MF pfNone envNone true true "tmp" (some w8model) (some w8settings)
          { dirs := [] }).1
        = Except.ok (parse3MFCore pfNone envNone w8model w8settings)
      ∧ ∀ plate ∈ (parse3MFCore pfNone envNone w8model w8settings).Plates,
          ∀ o ∈ plate.Objects, o.ID ≠ 99) :=
  ⟨by decide,
   parse3MF_dangling_reference pfNone envNone w8model w8settings 99 "tmp"
     { dirs := [] } (by decide)⟩

/-- Claim C9 (confirmed): on every return path — archive-open failure,
per-entry extraction failure, either document failing to parse, or full
success — the scratch directory allocated for the invocation is absent
from the file-system state when `Parse3MF` returns. -/
theorem parse3MF_cleanup (pf : String → Option ℚ) (env : String → Option Model3D)
    (openOk entriesOk : Bool) (newDir : String)
    (modelDoc : Option Model3D) (settingsDoc : Option ModelSettings) (fs : FS)
    (hfresh : newDir ∉ fs.dirs) :
    newDir ∉ (Parse3MF pf env openOk entriesOk newDir modelDoc settingsDoc fs).2.dirs := by
  have hclean : ∀ fs' : FS, newDir ∉ (CleanupTemp newDir fs').dirs := by
    intro fs' hmem
    have hpred := (List.mem_filter.mp hmem).2
    simp at hpred
  cases openOk with
  | false => exact hfresh
  | true =>
    cases entriesOk with
    | false => exact hclean _
    | true =>
      cases modelDoc with
      | none => exact hclean _
      | some model =>
        cases settingsDoc with
        | none => exact hclean _
        | some settings => exact hclean _

/-- Witness for C9: a failed parse still leaves no scratch directory. -/
theorem parse3MF_cleanup_witness :
    ("tmpdir" ∉ FS.dirs { dirs := [] })
    ∧ "tmpdir" ∉ (Parse3MF pfNone envNone true true "tmpdir" none none
        { dirs := [] }).2.dirs :=
  ⟨by decide,
   parse3MF_cleanup pfNone envNone true true "tmpdir" none none { dirs := [] } (by decide)⟩

/-- Claim C10 (confirmed): every plate object in a successful top-level
parse result has an empty material string: no code path of the
assembler assigns a material. -/
theorem parse3MF_material_empty (pf : String → Option ℚ) (env : String → Option Model3D)
    (openOk entriesOk : Bool) (newDir : String)
    (modelDoc : Option Model3D) (settingsDoc : Option ModelSettings) (fs : FS)
    (res : Parser3MF)
    (hok : (Parse3MF pf env openOk entriesOk newDir modelDoc settingsDoc fs).1
      = Except.ok res) :
    ∀ plate ∈ res.Plates, ∀ o ∈ plate.Objects, o.Material = "" := by
  cases openOk with
  | false => simp [Parse3MF, ExtractArchive] at hok
  | true =>
    cases entriesOk with
    | false => simp [Parse3MF, ExtractArchive] at hok
    | true =>
      cases modelDoc with
      | none => simp [Parse3MF, ExtractArchive] at hok
      | some model =>
        cases settingsDoc with
        | none => simp [Parse3MF, ExtractArchive] at hok
        | some settings =>
          simp only [Parse3MF, ExtractArchive] at hok
          have hres : parse3MFCore pf env model settings = res := by
            simpa using hok
          rw [← hres]
          apply parse3MFCore_objects_prop
          intro bi mo _
          exact buildPlateObject_material pf env _ _ _ bi mo

/-- Witness for C10: a successful parse of a concrete package whose
plate objects all have empty material. -/
theorem parse3MF_material_empty_witness :
    ((Parse3MF pfNone envNone true true "tmp" (some w8model) (some w8settings)
        { dirs := [] }).1
      = Except.ok (parse3MFCore pfNone envNone w8model w8settings))
    ∧ ∀ plate ∈ (parse3MFCore pfNone envNone w8model w8settings).Plates,
        ∀ o ∈ plate.Objects, o.Material = "" :=
  ⟨rfl,
   parse3MF_material_empty pfNone envNone true true "tmp" (some w8model) (some w8settings)
     { dirs := [] } (parse3MFCore pfNone envNone w8model w8settings) rfl⟩

end Parser
